import Mathlib

/-!
Shallow embedding of the interaction core of `src/visual_editor/component.rs`
(a drag-and-connect visual diagram editor written in Rust/Dioxus).

The Rust code keeps a single global `EditorState`:
a `HashMap<usize, Component>` of nodes keyed by integer handle, a `next_id`
counter, a selection, transient drag state (dragged id plus pointer offset),
transient connection state (source id, live preview point, hovered candidate
target), a hovered-container marker, a mode flag and a `just_dragged` click
suppression flag.

The embedding models the `HashMap<usize, Component>` as an association list
`List (Nat × Component)`; `f64` coordinates are modelled as exact rationals
(all the drag/offset arithmetic in the source is plain addition, subtraction
and division by 2, so the rational model mirrors it operation for operation).
Each Rust mutator function is one Lean function of the same name taking and
returning an `EditorState`.  Event handlers written inline in the `rsx!`
views (`ComponentBox::onclick`, `onmouseup`, `onmousedown`, the canvas
background `onmousedown`) are embedded as `box_onclick`, `box_onmouseup`,
`box_onmousedown`, `background_mousedown`.  `page_to_local` is the identity
on non-wasm targets, so gesture entry points here take canvas-local
coordinates directly.
-/

namespace CliCms

/-- Node variant tag, from `enum ComponentType` in component.rs. -/
inductive ComponentType where
  | Container
  | Heading
  | Paragraph
deriving DecidableEq, Repr

/-- A node of the diagram, from `struct Component` in component.rs.
`styles` models the `HashMap<String, String>` as an association list. -/
structure Component where
  id : Nat
  component_type : ComponentType
  children : List Nat
  styles : List (String × String)
  content : String
  x : ℚ
  y : ℚ
deriving DecidableEq, Repr

/-- Editor versus preview rendering mode, from `enum EditorMode`. -/
inductive EditorMode where
  | Editor
  | Preview
deriving DecidableEq, Repr

/-- The whole shared editor state, from `struct EditorState` in component.rs. -/
structure EditorState where
  components : List (Nat × Component)
  next_id : Nat
  selected_id : Option Nat
  dragging_id : Option Nat
  drag_offset_x : ℚ
  drag_offset_y : ℚ
  mode : EditorMode
  hovering_container_id : Option Nat
  connecting_from : Option Nat
  connecting_mouse_x : ℚ
  connecting_mouse_y : ℚ
  connecting_hover_target_id : Option Nat
  just_dragged : Bool
deriving DecidableEq, Repr

/-- `EditorState::default`: empty map, counter 0, everything idle. -/
def EditorState.default : EditorState :=
  { components := []
    next_id := 0
    selected_id := none
    dragging_id := none
    drag_offset_x := 0
    drag_offset_y := 0
    mode := EditorMode.Editor
    hovering_container_id := none
    connecting_from := none
    connecting_mouse_x := 0
    connecting_mouse_y := 0
    connecting_hover_target_id := none
    just_dragged := false }

/-- `HashMap::get` on the association-list model: value of the first pair
with the given key. -/
def lookupComp : List (Nat × Component) → Nat → Option Component
  | [], _ => none
  | p :: rest, k => if p.1 = k then some p.2 else lookupComp rest k

/-- `HashMap::remove` on the association-list model: drop every pair with
the given key. -/
def mapErase (k : Nat) : List (Nat × Component) → List (Nat × Component)
  | [] => []
  | p :: rest => if p.1 = k then mapErase k rest else p :: mapErase k rest

/-- `HashMap::insert` on the association-list model: replace any pair with
the given key by the new one. -/
def mapInsert (k : Nat) (v : Component) (m : List (Nat × Component)) :
    List (Nat × Component) :=
  (k, v) :: mapErase k m

/-- `HashMap::get_mut` followed by an in-place update: rewrite the value of
the first pair with the given key, leave the map unchanged when the key is
absent. -/
def mapModify (k : Nat) (f : Component → Component) :
    List (Nat × Component) → List (Nat × Component)
  | [] => []
  | p :: rest => if p.1 = k then (p.1, f p.2) :: rest else p :: mapModify k f rest

/-- Default content per variant, from the `match` in `add_component`. -/
def default_content : ComponentType → String
  | ComponentType.Heading => "Heading Text"
  | ComponentType.Paragraph => "Paragraph text"
  | ComponentType.Container => ""

/-- `add_component`: allocate `next_id`, insert a fresh node with empty
child list, empty style map, default content and a position derived from the
handle, select it. -/
def add_component (component_type : ComponentType) (s : EditorState) : EditorState :=
  let id := s.next_id
  let comp : Component :=
    { id := id
      component_type := component_type
      children := []
      styles := []
      content := default_content component_type
      x := 50 + (id : ℚ) * 20
      y := 50 + (id : ℚ) * 20 }
  { s with
      next_id := id + 1
      components := mapInsert id comp s.components
      selected_id := some id }

/-- `select_component`: set the selection. -/
def select_component (id : Nat) (s : EditorState) : EditorState :=
  { s with selected_id := some id }

/-- `delete_component`: scrub the handle from every child list, remove the
node, clear the selection when it pointed at the handle.  (The source
touches no other field.) -/
def delete_component (id : Nat) (s : EditorState) : EditorState :=
  let scrubbed := s.components.map
    (fun p => (p.1, { p.2 with children := p.2.children.filter (fun c => c ≠ id) }))
  { s with
      components := mapErase id scrubbed
      selected_id := if s.selected_id = some id then none else s.selected_id }

/-- `start_dragging`: on a present handle, capture the pointer-to-node
offset, mark the node as dragged and select it; on an absent handle return
early with no change.  (`page_to_local` is the identity on non-wasm
targets, so the arguments are canvas-local coordinates.) -/
def start_dragging (id : Nat) (mouse_x mouse_y : ℚ) (s : EditorState) : EditorState :=
  match lookupComp s.components id with
  | none => s
  | some component =>
      { s with
          dragging_id := some id
          drag_offset_x := mouse_x - component.x
          drag_offset_y := mouse_y - component.y
          selected_id := some id }

/-- The hovered-candidate search in `handle_mouse_move`: the first component
other than the connection source whose 200×80 bounding box contains the
pointer. -/
def findHovered (s : EditorState) (mouse_x mouse_y : ℚ) : Option Nat :=
  (s.components.find? (fun p =>
    !(s.connecting_from == some p.1) &&
    decide (p.2.x ≤ mouse_x) && decide (mouse_x ≤ p.2.x + 200) &&
    decide (p.2.y ≤ mouse_y) && decide (mouse_y ≤ p.2.y + 80))).map (fun p => p.1)

/-- `handle_mouse_move`: while dragging, move the dragged node to
pointer − offset (no-op on the map when the dragged handle is absent);
while connecting, update the live preview point and recompute the hovered
candidate target. -/
def handle_mouse_move (mouse_x mouse_y : ℚ) (s : EditorState) : EditorState :=
  let s1 :=
    match s.dragging_id with
    | some id =>
        { s with components := (mapModify id
            (fun c => { c with x := mouse_x - s.drag_offset_x,
                               y := mouse_y - s.drag_offset_y }) s.components) }
    | none => s
  match s1.connecting_from with
  | some _ =>
      { s1 with
          connecting_mouse_x := mouse_x
          connecting_mouse_y := mouse_y
          connecting_hover_target_id := findHovered s1 mouse_x mouse_y }
  | none => s1

/-- `stop_dragging`: the logical write it performs (directly, or via the
retry-on-next-tick path) — clear the dragged id and set the click
suppression flag. -/
def stop_dragging (s : EditorState) : EditorState :=
  { s with dragging_id := none, just_dragged := true }

/-- `update_content`: overwrite the content of a present node, silently do
nothing on an absent handle. -/
def update_content (component_id : Nat) (content : String) (s : EditorState) :
    EditorState :=
  { s with components := (mapModify component_id
      (fun c => { c with content := content }) s.components) }

/-- `HashMap::insert` on the style map: replace any pair with the key. -/
def stylesInsert (k v : String) (l : List (String × String)) :
    List (String × String) :=
  (k, v) :: l.filter (fun p => p.1 ≠ k)

/-- `update_style`: on a present node, an empty value removes the key and a
non-empty value inserts/overwrites it; silently nothing on an absent
handle. -/
def update_style (component_id : Nat) (property value : String) (s : EditorState) :
    EditorState :=
  { s with components := (mapModify component_id
      (fun c =>
        if value = "" then
          { c with styles := c.styles.filter (fun p => p.1 ≠ property) }
        else
          { c with styles := stylesInsert property value c.styles }) s.components) }

/-- `complete_connection`: when the source handle maps to a Container and
the edge is new and not a self-loop, append the target to the source's
child list and select the target; in every other case change nothing.  The
target handle is never looked up. -/
def complete_connection (from_id to_id : Nat) (s : EditorState) : EditorState :=
  match lookupComp s.components from_id with
  | none => s
  | some fromComp =>
      if fromComp.component_type ≠ ComponentType.Container then s
      else if to_id ∉ fromComp.children ∧ to_id ≠ from_id then
        { s with
            components := (mapModify from_id
              (fun c => { c with children := c.children ++ [to_id] }) s.components),
            selected_id := some to_id }
      else s

/-- `set_mode`. -/
def set_mode (mode : EditorMode) (s : EditorState) : EditorState :=
  { s with mode := mode }

/-- `set_hovering_container`. -/
def set_hovering_container (id : Option Nat) (s : EditorState) : EditorState :=
  { s with hovering_container_id := id }

/-- `set_connecting_hover_target`. -/
def set_connecting_hover_target (id : Option Nat) (s : EditorState) : EditorState :=
  { s with connecting_hover_target_id := id }

/-- `start_connecting`: read the component position (falling back to (0,0)
when the handle is absent), then unconditionally set the connection source
to the handle and seed the live preview point at the component center
(x+100, y+40). -/
def start_connecting (id : Nat) (s : EditorState) : EditorState :=
  let pos :=
    match lookupComp s.components id with
    | some comp => (comp.x, comp.y)
    | none => ((0 : ℚ), (0 : ℚ))
  { s with
      connecting_from := some id
      connecting_mouse_x := pos.1 + 100
      connecting_mouse_y := pos.2 + 40 }

/-- `stop_connecting`: clear the connection source and the hovered
candidate. -/
def stop_connecting (s : EditorState) : EditorState :=
  { s with connecting_from := none, connecting_hover_target_id := none }

/-- The `onclick` handler of `ComponentBox`: while connecting, clear any
leftover suppression flag, complete the connection unless the click landed
on the source itself, and clear connection state; while idle with the
suppression flag set, just consume the flag; otherwise select the clicked
node. -/
def box_onclick (component_id : Nat) (s : EditorState) : EditorState :=
  if s.connecting_from.isSome then
    let s1 := if s.just_dragged then { s with just_dragged := false } else s
    match s1.connecting_from with
    | some from_id =>
        let s2 := if from_id ≠ component_id then
            complete_connection from_id component_id s1
          else s1
        stop_connecting s2
    | none => s1
  else if s.just_dragged then
    { s with just_dragged := false }
  else
    select_component component_id s

/-- The `onmouseup` handler of `ComponentBox`: while connecting it mirrors
the click path (clear leftover flag, complete unless self, clear connection
state); otherwise it does nothing. -/
def box_onmouseup (component_id : Nat) (s : EditorState) : EditorState :=
  if s.connecting_from.isSome then
    let s1 := if s.just_dragged then { s with just_dragged := false } else s
    match s1.connecting_from with
    | some from_id =>
        let s2 := if from_id ≠ component_id then
            complete_connection from_id component_id s1
          else s1
        stop_connecting s2
    | none => s1
  else s

/-- The `onmousedown` handler of `ComponentBox`: while connecting do not
start a drag; otherwise start dragging the node. -/
def box_onmousedown (component_id : Nat) (mouse_x mouse_y : ℚ) (s : EditorState) :
    EditorState :=
  if s.connecting_from.isSome then s
  else start_dragging component_id mouse_x mouse_y s

/-- The canvas background `onmousedown` handler: abort an in-progress
connection, otherwise nothing. -/
def background_mousedown (s : EditorState) : EditorState :=
  if s.connecting_from.isSome then stop_connecting s else s

/-- `rect_edge_point_towards` (ℚ model of the f64 source): the point on the
perimeter of the axis-aligned rectangle at (rect_x, rect_y) of size
rect_w × rect_h that lies on the ray from the rectangle center toward
(source_x, source_y).  `none` plays the role of the initial `f64::INFINITY`
accumulator. -/
def rect_edge_point_towards (source_x source_y rect_x rect_y rect_w rect_h : ℚ) :
    ℚ × ℚ :=
  let cx := rect_x + rect_w / 2
  let cy := rect_y + rect_h / 2
  let vx := source_x - cx
  let vy := source_y - cy
  if vx = 0 ∧ vy = 0 then (cx, cy)
  else
    let hw := rect_w / 2
    let hh := rect_h / 2
    let s0 : Option ℚ := none
    let s1 : Option ℚ :=
      if 0 < |vx| then
        some (match s0 with
              | none => hw / |vx|
              | some t => min t (hw / |vx|))
      else s0
    let s2 : Option ℚ :=
      if 0 < |vy| then
        some (match s1 with
              | none => hh / |vy|
              | some t => min t (hh / |vy|))
      else s1
    match s2 with
    | none => (cx, cy)
    | some t => (cx + vx * t, cy + vy * t)

/-- The root filter of `PreviewCanvas`: the handles of the components whose
`id` field occurs in no component's child list. -/
def previewRoots (s : EditorState) : List Nat :=
  (s.components.filter (fun p =>
    !(s.components.any (fun q => q.2.children.contains p.2.id)))).map (fun p => p.1)

/-- One inbound operation of the editor: each constructor names the state
mutator (or inline event handler) of component.rs that it invokes. -/
inductive Op where
  | addComponent (t : ComponentType)
  | deleteComponent (id : Nat)
  | selectComponent (id : Nat)
  | startDragging (id : Nat) (x y : ℚ)
  | handleMouseMove (x y : ℚ)
  | stopDragging
  | updateContent (id : Nat) (content : String)
  | updateStyle (id : Nat) (property value : String)
  | completeConnection (from_id to_id : Nat)
  | setMode (m : EditorMode)
  | setHoveringContainer (id : Option Nat)
  | setConnectingHoverTarget (id : Option Nat)
  | startConnecting (id : Nat)
  | stopConnecting
  | boxClick (id : Nat)
  | boxMouseUp (id : Nat)
  | boxMouseDown (id : Nat) (x y : ℚ)
  | backgroundMouseDown
deriving Repr

/-- Dispatch one operation to the embedded mutator. -/
def applyOp (s : EditorState) : Op → EditorState
  | Op.addComponent t => add_component t s
  | Op.deleteComponent id => delete_component id s
  | Op.selectComponent id => select_component id s
  | Op.startDragging id x y => start_dragging id x y s
  | Op.handleMouseMove x y => handle_mouse_move x y s
  | Op.stopDragging => stop_dragging s
  | Op.updateContent id c => update_content id c s
  | Op.updateStyle id p v => update_style id p v s
  | Op.completeConnection a b => complete_connection a b s
  | Op.setMode m => set_mode m s
  | Op.setHoveringContainer id => set_hovering_container id s
  | Op.setConnectingHoverTarget id => set_connecting_hover_target id s
  | Op.startConnecting id => start_connecting id s
  | Op.stopConnecting => stop_connecting s
  | Op.boxClick id => box_onclick id s
  | Op.boxMouseUp id => box_onmouseup id s
  | Op.boxMouseDown id x y => box_onmousedown id x y s
  | Op.backgroundMouseDown => background_mousedown s

/-- Run a whole session: fold the operations over the default state. -/
def runOps (ops : List Op) : EditorState :=
  ops.foldl applyOp EditorState.default

/-- A session restricted to node creation and deletion, as in the claim
about create/delete sequences. -/
inductive CDOp where
  | create (t : ComponentType)
  | delete (id : Nat)
deriving Repr

/-- View a create/delete operation as a general operation. -/
def CDOp.toOp : CDOp → Op
  | CDOp.create t => Op.addComponent t
  | CDOp.delete id => Op.deleteComponent id

/-- Run a create/delete session from the default state. -/
def runCD (ops : List CDOp) : EditorState :=
  runOps (ops.map CDOp.toOp)

/-! ### Association-list map lemmas -/

lemma lookupComp_eq_none_iff (m : List (Nat × Component)) (k : Nat) :
    lookupComp m k = none ↔ ∀ p ∈ m, p.1 ≠ k := by
  induction m with
  | nil => simp [lookupComp]
  | cons p rest ih =>
      by_cases h : p.1 = k
      · simp [lookupComp, h]
      · simp [lookupComp, h, ih]

lemma lookupComp_isSome_of_mem (m : List (Nat × Component)) (p : Nat × Component)
    (hp : p ∈ m) : lookupComp m p.1 ≠ none := by
  intro hnone
  exact (lookupComp_eq_none_iff m p.1).1 hnone p hp rfl

lemma lookupComp_mapModify (k : Nat) (f : Component → Component)
    (m : List (Nat × Component)) (j : Nat) :
    lookupComp (mapModify k f m) j =
      if j = k then (lookupComp m j).map f else lookupComp m j := by
  induction m with
  | nil => simp [mapModify, lookupComp]
  | cons p rest ih =>
      by_cases hpk : p.1 = k
      · subst hpk
        by_cases hpj : p.1 = j
        · subst hpj
          simp [mapModify, lookupComp]
        · have hjp : ¬ j = p.1 := fun h => hpj h.symm
          simp [mapModify, lookupComp, hpj, hjp]
      · by_cases hpj : p.1 = j
        · subst hpj
          have hjk : ¬ p.1 = k := hpk
          simp [mapModify, lookupComp, hjk]
        · simp [mapModify, lookupComp, hpk, hpj, ih]

lemma mapModify_of_absent (k : Nat) (f : Component → Component)
    (m : List (Nat × Component)) (h : lookupComp m k = none) :
    mapModify k f m = m := by
  induction m with
  | nil => rfl
  | cons p rest ih =>
      rw [lookupComp_eq_none_iff] at h
      have hp : p.1 ≠ k := h p (List.mem_cons_self p rest)
      have hrest : lookupComp rest k = none := by
        rw [lookupComp_eq_none_iff]
        exact fun q hq => h q (List.mem_cons_of_mem p hq)
      simp [mapModify, hp, ih hrest]

lemma mem_mapErase_iff (k : Nat) (m : List (Nat × Component)) (p : Nat × Component) :
    p ∈ mapErase k m ↔ p ∈ m ∧ p.1 ≠ k := by
  induction m with
  | nil => simp [mapErase]
  | cons q rest ih =>
      by_cases h : q.1 = k
      · simp only [mapErase, if_pos h, ih, List.mem_cons]
        constructor
        · rintro ⟨hm, hk⟩; exact ⟨Or.inr hm, hk⟩
        · rintro ⟨hm | hm, hk⟩
          · exact absurd (hm ▸ h) hk
          · exact ⟨hm, hk⟩
      · simp only [mapErase, if_neg h, List.mem_cons, ih]
        constructor
        · rintro (rfl | ⟨hm, hk⟩)
          · exact ⟨Or.inl rfl, h⟩
          · exact ⟨Or.inr hm, hk⟩
        · rintro ⟨rfl | hm, hk⟩
          · exact Or.inl rfl
          · exact Or.inr ⟨hm, hk⟩

lemma mem_mapInsert_iff (k : Nat) (v : Component) (m : List (Nat × Component))
    (p : Nat × Component) :
    p ∈ mapInsert k v m ↔ p = (k, v) ∨ (p ∈ m ∧ p.1 ≠ k) := by
  simp [mapInsert, List.mem_cons, mem_mapErase_iff]

lemma mem_mapModify (k : Nat) (f : Component → Component)
    (m : List (Nat × Component)) (p : Nat × Component)
    (h : p ∈ mapModify k f m) :
    ∃ q ∈ m, p.1 = q.1 ∧ (p.2 = q.2 ∨ p.2 = f q.2) := by
  induction m with
  | nil => simp [mapModify] at h
  | cons q rest ih =>
      by_cases hq : q.1 = k
      · rw [mapModify, if_pos hq, List.mem_cons] at h
        rcases h with rfl | h
        · exact ⟨q, List.mem_cons_self q rest, rfl, Or.inr rfl⟩
        · exact ⟨p, List.mem_cons_of_mem q h, rfl, Or.inl rfl⟩
      · rw [mapModify, if_neg hq, List.mem_cons] at h
        rcases h with rfl | h
        · exact ⟨p, List.mem_cons_self p rest, rfl, Or.inl rfl⟩
        · obtain ⟨r, hr, h1, h2⟩ := ih h
          exact ⟨r, List.mem_cons_of_mem q hr, h1, h2⟩

lemma map_eq_self_of {α : Type} (l : List α) (f : α → α) (h : ∀ x ∈ l, f x = x) :
    l.map f = l := by
  induction l with
  | nil => rfl
  | cons x rest ih =>
      simp only [List.map_cons, h x (List.mem_cons_self x rest),
        ih (fun y hy => h y (List.mem_cons_of_mem x hy))]

lemma mapErase_of_absent (k : Nat) (m : List (Nat × Component))
    (h : ∀ p ∈ m, p.1 ≠ k) : mapErase k m = m := by
  induction m with
  | nil => rfl
  | cons p rest ih =>
      have hp := h p (List.mem_cons_self p rest)
      simp [mapErase, hp, ih (fun q hq => h q (List.mem_cons_of_mem p hq))]

/-! ### Concrete example states used by counterexamples and witnesses -/

/-- A Container node with handle 0 at (50, 50). -/
def exComp0 : Component :=
  { id := 0
    component_type := ComponentType.Container
    children := []
    styles := []
    content := ""
    x := 50
    y := 50 }

/-- A Heading node with handle 1 at (70, 70). -/
def exCompH : Component :=
  { id := 1
    component_type := ComponentType.Heading
    children := []
    styles := []
    content := "Heading Text"
    x := 70
    y := 70 }

/-- A state holding the single Container node 0. -/
def exState1 : EditorState :=
  { EditorState.default with
      components := [(0, exComp0)]
      next_id := 1
      selected_id := some 0 }

/-- A state holding the Container node 0 and the Heading node 1. -/
def exState2 : EditorState :=
  { EditorState.default with
      components := [(0, exComp0), (1, exCompH)]
      next_id := 2
      selected_id := some 1 }

/-- Container node A (handle 0) containing node 1. -/
def exCompA : Component := { exComp0 with children := [1] }

/-- Paragraph node C (handle 2). -/
def exCompC : Component :=
  { id := 2
    component_type := ComponentType.Paragraph
    children := []
    styles := []
    content := "Paragraph text"
    x := 90
    y := 90 }

/-- Three nodes A = 0, B = 1, C = 2 with the single containment edge
A → B. -/
def exStateABC : EditorState :=
  { EditorState.default with
      components := [(0, exCompA), (1, exCompH), (2, exCompC)]
      next_id := 3 }

/-! ### Theorems about the claims -/

/-- C1 (counterexample): in the reachable session add-Container, press on
node 0 (which starts a drag), then delete node 0, the delete leaves
`dragging_id = some 0` — the deleted handle is still the drag subject, so
deleting does not return all gesture-state fields to Idle/empty.  The same
session via start-connecting leaves `connecting_from = some 0`. -/
theorem delete_keeps_stale_gesture_state :
    (runOps [Op.addComponent ComponentType.Container, Op.boxMouseDown 0 0 0,
      Op.deleteComponent 0]).dragging_id = some 0 ∧
    (runOps [Op.addComponent ComponentType.Container, Op.startConnecting 0,
      Op.deleteComponent 0]).connecting_from = some 0 := by
  constructor <;> decide

/-- C1 (amended): `delete_component` removes the node from the map, scrubs
the handle from every child list and clears the selection when it pointed
at the handle, but it leaves every other gesture field — dragging, the
connection source, the connection hover target, the hovered container and
the suppression flag — exactly as they were, even when they equal the
deleted handle. -/
theorem delete_component_effect (id : Nat) (s : EditorState) :
    (delete_component id s).dragging_id = s.dragging_id
  ∧ (delete_component id s).connecting_from = s.connecting_from
  ∧ (delete_component id s).connecting_hover_target_id = s.connecting_hover_target_id
  ∧ (delete_component id s).hovering_container_id = s.hovering_container_id
  ∧ (delete_component id s).just_dragged = s.just_dragged
  ∧ lookupComp (delete_component id s).components id = none
  ∧ (∀ p ∈ (delete_component id s).components, id ∉ p.2.children)
  ∧ (delete_component id s).selected_id =
      (if s.selected_id = some id then none else s.selected_id) := by
  refine ⟨rfl, rfl, rfl, rfl, rfl, ?_, ?_, rfl⟩
  · rw [lookupComp_eq_none_iff]
    intro p hp
    exact ((mem_mapErase_iff id _ p).1 hp).2
  · intro p hp
    have hmem : p ∈ (s.components.map
        (fun p => (p.1, { p.2 with children := p.2.children.filter (fun c => c ≠ id) }))) :=
      ((mem_mapErase_iff id _ p).1 hp).1
    rw [List.mem_map] at hmem
    obtain ⟨q, _, rfl⟩ := hmem
    simp

/-- C1 (amended, witness): deleting node 1 from the concrete three-node
state leaves the gesture fields alone, removes the node, and scrubs 1 from
the child list of node 0. -/
theorem delete_component_effect_witness :
    (delete_component 1 exStateABC).dragging_id = exStateABC.dragging_id
  ∧ lookupComp (delete_component 1 exStateABC).components 1 = none
  ∧ (1 : Nat) ∉ ((0 : Nat),
      { exCompA with children := exCompA.children.filter (fun c => c ≠ 1) }).2.children := by
  have h := delete_component_effect 1 exStateABC
  exact ⟨h.1, h.2.2.2.2.2.1, h.2.2.2.2.2.2.1 _ (List.mem_cons_self _ _)⟩

/-- C6 (counterexample): `start_connecting 5` on the default (empty) state
is not a no-op even though handle 5 is absent: it sets the connection
source to the absent handle (and the preview point to (100, 40)). -/
theorem start_connecting_absent_not_noop :
    start_connecting 5 EditorState.default ≠ EditorState.default ∧
    (start_connecting 5 EditorState.default).connecting_from = some 5 := by
  constructor <;> decide

/-- C6 (amended): on a handle absent from the component map, setContent,
setStyle, pointer-down-on-node and the drag position write all leave the
state entirely unchanged, and deleteNode leaves it unchanged provided the
absent handle occurs in no child list and is not the selection; but
startConnect is not a referential no-op: it still records the absent handle
as connection source and seeds the preview point at (100, 40) from the
(0, 0) fallback position. -/
theorem absent_handle_ops (s : EditorState) (h : Nat)
    (habs : lookupComp s.components h = none) :
    (∀ t, update_content h t s = s)
  ∧ (∀ k v, update_style h k v s = s)
  ∧ (∀ x y, start_dragging h x y s = s)
  ∧ (∀ x y, s.dragging_id = some h → (handle_mouse_move x y s).components = s.components)
  ∧ ((∀ p ∈ s.components, h ∉ p.2.children) → s.selected_id ≠ some h →
      delete_component h s = s)
  ∧ (start_connecting h s =
      { s with connecting_from := some h, connecting_mouse_x := 100,
               connecting_mouse_y := 40 : EditorState }) := by
  refine ⟨?_, ?_, ?_, ?_, ?_, ?_⟩
  · intro t
    show { s with components := _ } = s
    rw [mapModify_of_absent h _ s.components habs]
  · intro k v
    show { s with components := _ } = s
    rw [mapModify_of_absent h _ s.components habs]
  · intro x y
    simp [start_dragging, habs]
  · intro x y hdrag
    have hcomps : mapModify h
        (fun c => { c with x := x - s.drag_offset_x, y := y - s.drag_offset_y })
        s.components = s.components := mapModify_of_absent h _ s.components habs
    rcases hc : s.connecting_from with _ | cf <;>
      simp [handle_mouse_move, hdrag, hcomps, hc]
  · intro hchild hsel
    have hkeys : ∀ p ∈ s.components, p.1 ≠ h := (lookupComp_eq_none_iff _ _).1 habs
    have hscrub : s.components.map
        (fun p => (p.1, { p.2 with children := p.2.children.filter (fun c => c ≠ h) }))
        = s.components := by
      apply map_eq_self_of
      intro p hp
      have : p.2.children.filter (fun c => c ≠ h) = p.2.children := by
        rw [List.filter_eq_self]
        intro c hc
        have : c ≠ h := fun he => hchild p hp (he ▸ hc)
        simpa using this
      rw [this]
    show { s with components := _, selected_id := _ } = s
    rw [hscrub, mapErase_of_absent h s.components hkeys, if_neg hsel]
  · simp [start_connecting, habs]

/-- C10: `complete_connection` never looks the target handle up — from a
state whose source handle maps to a Container that does not yet list the
absent target (and target ≠ source), it appends the absent target to the
child list and selects it, so child lists can reference handles with no
node. -/
theorem complete_connection_absent_target (s : EditorState) (from_id to_id : Nat)
    (comp : Component)
    (h1 : lookupComp s.components from_id = some comp)
    (h2 : comp.component_type = ComponentType.Container)
    (h3 : lookupComp s.components to_id = none)
    (h4 : to_id ≠ from_id)
    (h5 : to_id ∉ comp.children) :
    lookupComp (complete_connection from_id to_id s).components from_id =
      some { comp with children := comp.children ++ [to_id] }
  ∧ (complete_connection from_id to_id s).selected_id = some to_id
  ∧ lookupComp (complete_connection from_id to_id s).components to_id = none := by
  have e1 : complete_connection from_id to_id s =
      { s with
          components := (mapModify from_id
            (fun c => { c with children := c.children ++ [to_id] }) s.components),
          selected_id := some to_id } := by
    simp [complete_connection, h1, h2, h4, h5]
  refine ⟨?_, ?_, ?_⟩
  · rw [e1]
    show lookupComp (mapModify from_id _ s.components) from_id = _
    rw [lookupComp_mapModify, if_pos rfl, h1]
    rfl
  · rw [e1]
  · rw [e1]
    show lookupComp (mapModify from_id _ s.components) to_id = none
    rw [lookupComp_mapModify, if_neg h4, h3]

/-- C10 (witness): concretely, in the one-Container session, connecting
0 → 5 with 5 absent appends 5 to node 0's child list, selects 5, and 5 is
still absent from the map. -/
theorem complete_connection_absent_target_witness :
    lookupComp (complete_connection 0 5 exState1).components 0 =
      some { exComp0 with children := [5] }
  ∧ (complete_connection 0 5 exState1).selected_id = some 5
  ∧ lookupComp (complete_connection 0 5 exState1).components 5 = none := by
  have h := complete_connection_absent_target exState1 0 5 exComp0
    rfl rfl rfl (by decide) (by decide)
  exact h

lemma cc_of_none (s : EditorState) (a b : Nat)
    (hl : lookupComp s.components a = none) :
    complete_connection a b s = s := by
  simp [complete_connection, hl]

lemma cc_of_notContainer (s : EditorState) (a b : Nat) (comp : Component)
    (hl : lookupComp s.components a = some comp)
    (ht : comp.component_type ≠ ComponentType.Container) :
    complete_connection a b s = s := by
  simp [complete_connection, hl, ht]

lemma cc_of_mem (s : EditorState) (a b : Nat) (comp : Component)
    (hl : lookupComp s.components a = some comp)
    (hb : b ∈ comp.children) :
    complete_connection a b s = s := by
  simp [complete_connection, hl, hb]

lemma cc_self (s : EditorState) (a b : Nat) (hba : b = a) :
    complete_connection a b s = s := by
  rcases hl : lookupComp s.components a with _ | comp
  · simp [complete_connection, hl]
  · simp [complete_connection, hl, hba]

lemma cc_add (s : EditorState) (a b : Nat) (comp : Component)
    (hl : lookupComp s.components a = some comp)
    (ht : comp.component_type = ComponentType.Container)
    (hb : b ∉ comp.children) (hba : b ≠ a) :
    complete_connection a b s =
      { s with
          components := (mapModify a
            (fun c0 => { c0 with children := c0.children ++ [b] }) s.components),
          selected_id := some b } := by
  simp [complete_connection, hl, ht, hb, hba]

lemma cc_add_lookup (s : EditorState) (a b : Nat) (comp : Component)
    (hl : lookupComp s.components a = some comp)
    (ht : comp.component_type = ComponentType.Container)
    (hb : b ∉ comp.children) (hba : b ≠ a) :
    lookupComp (complete_connection a b s).components a =
      some { comp with children := comp.children ++ [b] } := by
  rw [cc_add s a b comp hl ht hb hba]
  show lookupComp (mapModify a _ s.components) a = _
  rw [lookupComp_mapModify, if_pos rfl, hl]
  rfl

/-- C2: `complete_connection` is idempotent (running it twice equals running
it once), a self-connection changes nothing at all, a non-Container source
changes nothing at all, and starting from a source whose child list holds
the target at most once, two calls leave exactly one copy of the target in
the child list. -/
theorem complete_connection_guards (s : EditorState) (p c : Nat) :
    complete_connection p c (complete_connection p c s) = complete_connection p c s
  ∧ complete_connection p p s = s
  ∧ (∀ comp, lookupComp s.components p = some comp →
      comp.component_type ≠ ComponentType.Container →
      complete_connection p c s = s)
  ∧ (∀ comp comp₂, lookupComp s.components p = some comp →
      comp.component_type = ComponentType.Container → c ≠ p →
      comp.children.count c ≤ 1 →
      lookupComp (complete_connection p c (complete_connection p c s)).components p =
        some comp₂ →
      comp₂.children.count c = 1) := by
  refine ⟨?_, ?_, ?_, ?_⟩
  · rcases hl : lookupComp s.components p with _ | comp
    · rw [cc_of_none s p c hl, cc_of_none s p c hl]
    · by_cases ht : comp.component_type = ComponentType.Container
      · by_cases hc : c ∈ comp.children
        · rw [cc_of_mem s p c comp hl hc, cc_of_mem s p c comp hl hc]
        · by_cases hcp : c = p
          · rw [cc_self s p c hcp, cc_self s p c hcp]
          · have hl2 := cc_add_lookup s p c comp hl ht hc hcp
            have hmem : c ∈ ({ comp with children := comp.children ++ [c] } : Component).children := by
              simp
            exact cc_of_mem _ p c _ hl2 hmem
      · rw [cc_of_notContainer s p c comp hl ht, cc_of_notContainer s p c comp hl ht]
  · exact cc_self s p p rfl
  · intro comp hl ht
    exact cc_of_notContainer s p c comp hl ht
  · intro comp comp₂ hl ht hcp hcount hl2
    by_cases hc : c ∈ comp.children
    · have hone : comp.children.count c = 1 :=
        le_antisymm hcount (List.one_le_count_iff.2 hc)
      rw [cc_of_mem s p c comp hl hc, cc_of_mem s p c comp hl hc, hl] at hl2
      cases hl2
      exact hone
    · have hl1 := cc_add_lookup s p c comp hl ht hc hcp
      have hmem : c ∈ ({ comp with children := comp.children ++ [c] } : Component).children := by
        simp
      rw [cc_of_mem _ p c _ hl1 hmem, hl1] at hl2
      cases hl2
      have hzero : comp.children.count c = 0 := List.count_eq_zero.2 hc
      simp [List.count_append, hzero]

/-- C2 (witness): in the two-node state, connecting Container 0 to Heading 1
twice leaves exactly one copy of 1 in node 0's child list, and connecting
from the non-Container node 1 changes nothing. -/
theorem complete_connection_guards_witness :
    ({ exComp0 with children := [1] } : Component).children.count 1 = 1
  ∧ complete_connection 1 0 exState2 = exState2 := by
  constructor
  · exact (complete_connection_guards exState2 0 1).2.2.2 exComp0
      { exComp0 with children := [1] } rfl rfl (by decide) (by decide) rfl
  · exact (complete_connection_guards exState2 1 0).2.2.1 exCompH rfl (by decide)

/-- C5 (counterexample): in the session add-Container, add-Heading the
selection is node 1; after the full drag sequence press-on-0, move,
release, click-on-0 the selection is node 0 — the suppressed click indeed
changes nothing, but the pointer-down already moved the selection to the
dragged node, so the selection does not equal what it was before the drag
started. -/
theorem drag_sequence_moves_selection :
    (runOps [Op.addComponent ComponentType.Container,
      Op.addComponent ComponentType.Heading]).selected_id = some 1
  ∧ (runOps [Op.addComponent ComponentType.Container,
      Op.addComponent ComponentType.Heading, Op.boxMouseDown 0 10 10,
      Op.handleMouseMove 60 60, Op.stopDragging, Op.boxClick 0]).selected_id = some 0
  ∧ (runOps [Op.addComponent ComponentType.Container,
      Op.addComponent ComponentType.Heading, Op.boxMouseDown 0 10 10,
      Op.handleMouseMove 60 60, Op.stopDragging, Op.boxClick 0]).selected_id ≠
    (runOps [Op.addComponent ComponentType.Container,
      Op.addComponent ComponentType.Heading]).selected_id := by
  refine ⟨?_, ?_, ?_⟩ <;> decide

/-- C5 (amended): with no connection in progress and the just-dragged
suppression flag set, a click on a node only consumes the flag — the whole
state is otherwise untouched, in particular the selection; but the
selection after a full down-move-up-click sequence is the dragged node
itself, set at pointer-down, not necessarily the pre-drag selection. -/
theorem suppressed_click_spec (s : EditorState) (n : Nat)
    (h1 : s.connecting_from = none) (h2 : s.just_dragged = true) :
    box_onclick n s = { s with just_dragged := false }
  ∧ (box_onclick n s).selected_id = s.selected_id
  ∧ (∀ x y comp, lookupComp s.components n = some comp →
      (box_onmousedown n x y s).selected_id = some n) := by
  have e : box_onclick n s = { s with just_dragged := false } := by
    simp [box_onclick, h1, h2]
  refine ⟨e, by rw [e], ?_⟩
  intro x y comp hcomp
  simp [box_onmousedown, h1, start_dragging, hcomp]

/-- C5 (witness): the amended suppression behaviour at the concrete
two-node state with the flag set. -/
theorem suppressed_click_spec_witness :
    box_onclick 0 { exState2 with just_dragged := true } =
      { exState2 with just_dragged := false }
  ∧ (box_onmousedown 0 10 10 { exState2 with just_dragged := true }).selected_id =
      some 0 := by
  have h := suppressed_click_spec { exState2 with just_dragged := true } 0 rfl rfl
  exact ⟨h.1, h.2.2 10 10 exComp0 rfl⟩

/-- The effect of `start_dragging` on a present handle: mark it dragged,
capture offset = pointer − position, select it, leave the map alone. -/
lemma start_dragging_spec (s : EditorState) (id : Nat) (px py : ℚ) (comp : Component)
    (hl : lookupComp s.components id = some comp) :
    start_dragging id px py s =
      { s with
          dragging_id := some id
          drag_offset_x := px - comp.x
          drag_offset_y := py - comp.y
          selected_id := some id } := by
  simp [start_dragging, hl]

/-- The effect of a mouse move on the dragged node: its position becomes
pointer − offset. -/
lemma mouse_move_drag_spec (s : EditorState) (id : Nat) (qx qy : ℚ) (comp : Component)
    (hdrag : s.dragging_id = some id)
    (hl : lookupComp s.components id = some comp) :
    lookupComp (handle_mouse_move qx qy s).components id =
      some { comp with x := qx - s.drag_offset_x, y := qy - s.drag_offset_y } := by
  have hcomps : (handle_mouse_move qx qy s).components =
      mapModify id (fun c => { c with x := qx - s.drag_offset_x,
                                      y := qy - s.drag_offset_y }) s.components := by
    rcases hc : s.connecting_from with _ | cf <;>
      simp [handle_mouse_move, hdrag, hc]
  rw [hcomps, lookupComp_mapModify, if_pos rfl, hl]
  rfl

/-- C4: drag arithmetic preserves the captured offset exactly.  Pointer-down
on a present node captures offset = pointer − position; every mouse move
while dragging puts the node at pointer − offset; releasing clears the drag
and raises the suppression flag without touching any position; and in the
concrete scenario of the claim — node 0 at (50, 50), press at (10, 10),
move to (60, 60) — the node ends at (100, 100) and stays there after the
release. -/
theorem drag_offset_arithmetic :
    (∀ s id px py comp, lookupComp s.components id = some comp →
      (start_dragging id px py s).dragging_id = some id
      ∧ (start_dragging id px py s).drag_offset_x = px - comp.x
      ∧ (start_dragging id px py s).drag_offset_y = py - comp.y
      ∧ (start_dragging id px py s).components = s.components)
  ∧ (∀ s id qx qy comp, s.dragging_id = some id →
      lookupComp s.components id = some comp →
      lookupComp (handle_mouse_move qx qy s).components id =
        some { comp with x := qx - s.drag_offset_x, y := qy - s.drag_offset_y })
  ∧ (∀ s, stop_dragging s = { s with dragging_id := none, just_dragged := true })
  ∧ (lookupComp (handle_mouse_move 60 60 (box_onmousedown 0 10 10 exState1)).components 0).map
      (fun c => (c.x, c.y)) = some (100, 100)
  ∧ (stop_dragging (handle_mouse_move 60 60 (box_onmousedown 0 10 10 exState1))).components
      = (handle_mouse_move 60 60 (box_onmousedown 0 10 10 exState1)).components
  ∧ (stop_dragging (handle_mouse_move 60 60 (box_onmousedown 0 10 10 exState1))).just_dragged
      = true
  ∧ (stop_dragging (handle_mouse_move 60 60 (box_onmousedown 0 10 10 exState1))).dragging_id
      = none := by
  refine ⟨?_, ?_, fun s => rfl, ?_, rfl, rfl, rfl⟩
  · intro s id px py comp hl
    rw [start_dragging_spec s id px py comp hl]
    exact ⟨rfl, rfl, rfl, rfl⟩
  · intro s id qx qy comp hdrag hl
    exact mouse_move_drag_spec s id qx qy comp hdrag hl
  · have e2 : box_onmousedown 0 10 10 exState1 = start_dragging 0 10 10 exState1 := rfl
    rw [e2, start_dragging_spec exState1 0 10 10 exComp0 rfl]
    have h3 := mouse_move_drag_spec
      { exState1 with
          dragging_id := some 0
          drag_offset_x := 10 - exComp0.x
          drag_offset_y := 10 - exComp0.y
          selected_id := some 0 } 0 60 60 exComp0 rfl rfl
    rw [h3]
    show some ((60 : ℚ) - (10 - exComp0.x), (60 : ℚ) - (10 - exComp0.y)) = some (100, 100)
    norm_num [exComp0]

/-- C4 (witness): the drag lemmas applied at the concrete one-node state. -/
theorem drag_offset_arithmetic_witness :
    (start_dragging 0 10 10 exState1).drag_offset_x = 10 - exComp0.x
  ∧ lookupComp (handle_mouse_move 60 60 (start_dragging 0 10 10 exState1)).components 0 =
      some { exComp0 with
        x := 60 - (start_dragging 0 10 10 exState1).drag_offset_x,
        y := 60 - (start_dragging 0 10 10 exState1).drag_offset_y } := by
  constructor
  · exact (drag_offset_arithmetic.1 exState1 0 10 10 exComp0 rfl).2.1
  · exact drag_offset_arithmetic.2.1 (start_dragging 0 10 10 exState1) 0 60 60 exComp0
      rfl rfl

/-- C7: a handle is rendered as a preview root exactly when it is a key of
the component map and occurs in no node's child list (provided each stored
node's `id` field matches its key, which every state built by the editor
satisfies); concretely for nodes {0, 1, 2} with the single edge 0 → 1 the
root list is exactly [0, 2] and node 1 is not a root. -/
theorem preview_roots_spec :
    (∀ s id, (∀ p ∈ s.components, p.2.id = p.1) →
      (id ∈ previewRoots s ↔
        (∃ c, (id, c) ∈ s.components) ∧ ∀ q ∈ s.components, id ∉ q.2.children))
  ∧ previewRoots exStateABC = [0, 2]
  ∧ (1 : Nat) ∉ previewRoots exStateABC := by
  refine ⟨?_, by decide, by decide⟩
  intro s id hwf
  constructor
  · intro hmem
    rw [previewRoots, List.mem_map] at hmem
    obtain ⟨p, hp, hfst⟩ := hmem
    rw [List.mem_filter] at hp
    obtain ⟨hpm, hpred⟩ := hp
    have hid : p.2.id = id := hfst ▸ hwf p hpm
    constructor
    · refine ⟨p.2, ?_⟩
      have : p = (id, p.2) := by
        cases p
        simp at hfst ⊢
        exact hfst
      exact this ▸ hpm
    · intro q hq hcq
      have : s.components.any (fun q => q.2.children.contains p.2.id) = true := by
        rw [List.any_eq_true]
        exact ⟨q, hq, List.elem_iff.2 (hid ▸ hcq)⟩
      rw [this] at hpred
      simp at hpred
  · rintro ⟨⟨c, hc⟩, hroots⟩
    rw [previewRoots, List.mem_map]
    refine ⟨(id, c), ?_, rfl⟩
    rw [List.mem_filter]
    refine ⟨hc, ?_⟩
    have hid : ((id, c) : Nat × Component).2.id = id := hwf (id, c) hc
    simp only [Bool.not_eq_eq_eq_not, Bool.not_true, List.any_eq_false]
    intro q hq
    intro hcon
    rw [List.elem_iff] at hcon
    exact hroots q hq (hid ▸ hcon)

/-- C7 (witness): the root characterisation applied at the concrete
three-node state: node 0 is a root because it is stored and in no child
list. -/
theorem preview_roots_spec_witness : 0 ∈ previewRoots exStateABC := by
  refine (preview_roots_spec.1 exStateABC 0 (by decide)).2 ⟨⟨exCompA, ?_⟩, by decide⟩
  show (0, exCompA) ∈ (0, exCompA) :: _
  exact List.mem_cons_self _ _

/-! ### Invariant machinery for reachable states -/

lemma exists_key_of_lookup_ne_none (m : List (Nat × Component)) (k : Nat)
    (h : lookupComp m k ≠ none) : ∃ q ∈ m, q.1 = k := by
  by_contra hx
  push_neg at hx
  exact h ((lookupComp_eq_none_iff m k).2 hx)

lemma lookup_ne_none_of_key (m : List (Nat × Component)) (k : Nat)
    (q : Nat × Component) (hq : q ∈ m) (hk : q.1 = k) :
    lookupComp m k ≠ none := by
  subst hk
  exact lookupComp_isSome_of_mem m q hq

/-- No-dangling-edge invariant: every handle in any child list is a key of
the component map. -/
def NoDangling (s : EditorState) : Prop :=
  ∀ p ∈ s.components, ∀ c ∈ p.2.children, lookupComp s.components c ≠ none

lemma noDangling_add (s : EditorState) (t : ComponentType)
    (h : NoDangling s) : NoDangling (add_component t s) := by
  intro p hp c hc
  rw [show (add_component t s).components = mapInsert s.next_id _ s.components from rfl,
    mem_mapInsert_iff] at hp
  rcases hp with rfl | ⟨hp, hpk⟩
  · simp at hc
  · have hold := h p hp c hc
    obtain ⟨q, hq, hqk⟩ := exists_key_of_lookup_ne_none _ _ hold
    by_cases hcn : c = s.next_id
    · rw [hcn]
      intro hnone
      rw [lookupComp_eq_none_iff] at hnone
      exact hnone _ (List.mem_cons_self _ _) rfl
    · refine lookup_ne_none_of_key _ _ q ((mem_mapInsert_iff _ _ _ _).2 ?_) hqk
      exact Or.inr ⟨hq, fun he => hcn (hqk ▸ he ▸ rfl)⟩

lemma noDangling_delete (s : EditorState) (id : Nat)
    (h : NoDangling s) : NoDangling (delete_component id s) := by
  intro p hp c hc
  have hp' := (mem_mapErase_iff id _ p).1 hp
  obtain ⟨hpm, hpk⟩ := hp'
  rw [List.mem_map] at hpm
  obtain ⟨q, hq, rfl⟩ := hpm
  simp only [List.mem_filter, decide_eq_true_eq] at hc
  obtain ⟨hcq, hcid⟩ := hc
  have hold := h q hq c hcq
  obtain ⟨r, hr, hrk⟩ := exists_key_of_lookup_ne_none _ _ hold
  refine lookup_ne_none_of_key _ _
    (r.1, { r.2 with children := r.2.children.filter (fun c => c ≠ id) })
    ((mem_mapErase_iff id _ _).2 ⟨?_, ?_⟩) hrk
  · rw [List.mem_map]
    exact ⟨r, hr, rfl⟩
  · exact fun he => hcid (hrk ▸ he)

/-- C3: after any finite sequence of createNode/deleteNode operations run
from the initial empty state, every handle occurring in any node's child
list is itself a key of the component map; indeed createNode and deleteNode
each preserve the no-dangling-edge invariant from any state — deleteNode
scrubs the deleted handle from all child lists. -/
theorem create_delete_no_dangling :
    (∀ ops : List CDOp, NoDangling (runCD ops))
  ∧ (∀ s t, NoDangling s → NoDangling (add_component t s))
  ∧ (∀ s id, NoDangling s → NoDangling (delete_component id s)) := by
  refine ⟨?_, noDangling_add, noDangling_delete⟩
  intro ops
  have aux : ∀ (l : List CDOp) (s : EditorState), NoDangling s →
      NoDangling ((l.map CDOp.toOp).foldl applyOp s) := by
    intro l
    induction l with
    | nil => intro s hs; exact hs
    | cons op rest ih =>
        intro s hs
        rcases op with t | id
        · exact ih _ (noDangling_add s t hs)
        · exact ih _ (noDangling_delete s id hs)
  exact aux ops EditorState.default (by intro p hp; simp [EditorState.default] at hp)

/-- C3 (witness): the invariant at a concrete create/delete run, and delete
applied to the concrete three-node state with the edge 0 → 1 (which it
scrubs). -/
theorem create_delete_no_dangling_witness :
    NoDangling (runCD [CDOp.create ComponentType.Container, CDOp.delete 0])
  ∧ NoDangling (delete_component 1 exStateABC) := by
  constructor
  · exact create_delete_no_dangling.1 [CDOp.create ComponentType.Container, CDOp.delete 0]
  · refine create_delete_no_dangling.2.2 exStateABC 1 ?_
    unfold NoDangling
    decide

/-- Key-bound invariant: every key of the component map is below the
allocation counter. -/
def KeysBelow (s : EditorState) : Prop :=
  ∀ p ∈ s.components, p.1 < s.next_id

lemma mem_components_complete_connection (s : EditorState) (a b : Nat)
    (p : Nat × Component) (hp : p ∈ (complete_connection a b s).components) :
    ∃ q ∈ s.components, p.1 = q.1 := by
  rcases hl : lookupComp s.components a with _ | comp
  · rw [cc_of_none s a b hl] at hp
    exact ⟨p, hp, rfl⟩
  · by_cases ht : comp.component_type = ComponentType.Container
    · by_cases hb : b ∈ comp.children
      · rw [cc_of_mem s a b comp hl hb] at hp
        exact ⟨p, hp, rfl⟩
      · by_cases hba : b = a
        · rw [cc_self s a b hba] at hp
          exact ⟨p, hp, rfl⟩
        · rw [cc_add s a b comp hl ht hb hba] at hp
          obtain ⟨q, hq, hk, _⟩ := mem_mapModify _ _ _ _ hp
          exact ⟨q, hq, hk⟩
    · rw [cc_of_notContainer s a b comp hl ht] at hp
      exact ⟨p, hp, rfl⟩

lemma next_id_complete_connection (s : EditorState) (a b : Nat) :
    (complete_connection a b s).next_id = s.next_id := by
  rcases hl : lookupComp s.components a with _ | comp
  · rw [cc_of_none s a b hl]
  · by_cases ht : comp.component_type = ComponentType.Container
    · by_cases hb : b ∈ comp.children
      · rw [cc_of_mem s a b comp hl hb]
      · by_cases hba : b = a
        · rw [cc_self s a b hba]
        · rw [cc_add s a b comp hl ht hb hba]
    · rw [cc_of_notContainer s a b comp hl ht]

lemma mem_components_handle_mouse_move (s : EditorState) (x y : ℚ)
    (p : Nat × Component) (hp : p ∈ (handle_mouse_move x y s).components) :
    ∃ q ∈ s.components, p.1 = q.1 := by
  rcases hd : s.dragging_id with _ | id <;>
    rcases hc : s.connecting_from with _ | cf <;>
      simp only [handle_mouse_move, hd, hc] at hp
  · exact ⟨p, hp, rfl⟩
  · exact ⟨p, hp, rfl⟩
  · obtain ⟨q, hq, hk, _⟩ := mem_mapModify _ _ _ _ hp
    exact ⟨q, hq, hk⟩
  · obtain ⟨q, hq, hk, _⟩ := mem_mapModify _ _ _ _ hp
    exact ⟨q, hq, hk⟩

lemma next_id_handle_mouse_move (s : EditorState) (x y : ℚ) :
    (handle_mouse_move x y s).next_id = s.next_id := by
  rcases hd : s.dragging_id with _ | id <;>
    rcases hc : s.connecting_from with _ | cf <;>
      simp [handle_mouse_move, hd, hc]

lemma components_start_dragging (s : EditorState) (id : Nat) (x y : ℚ) :
    (start_dragging id x y s).components = s.components := by
  rcases hl : lookupComp s.components id with _ | comp <;>
    simp [start_dragging, hl]

lemma next_id_start_dragging (s : EditorState) (id : Nat) (x y : ℚ) :
    (start_dragging id x y s).next_id = s.next_id := by
  rcases hl : lookupComp s.components id with _ | comp <;>
    simp [start_dragging, hl]

lemma components_start_connecting (s : EditorState) (id : Nat) :
    (start_connecting id s).components = s.components := rfl

lemma mem_components_box_onclick (s : EditorState) (n : Nat)
    (p : Nat × Component) (hp : p ∈ (box_onclick n s).components) :
    ∃ q ∈ s.components, p.1 = q.1 := by
  rcases hc : s.connecting_from with _ | f
  · by_cases hj : s.just_dragged <;>
      simp [box_onclick, hc, hj, select_component] at hp
    · exact ⟨p, hp, rfl⟩
    · exact ⟨p, hp, rfl⟩
  · by_cases hj : s.just_dragged <;> by_cases hfn : f = n <;>
      simp [box_onclick, hc, hj, hfn, stop_connecting] at hp
    · exact ⟨p, hp, rfl⟩
    · obtain ⟨q, hq, hk⟩ := mem_components_complete_connection _ f n p hp
      exact ⟨q, hq, hk⟩
    · exact ⟨p, hp, rfl⟩
    · exact mem_components_complete_connection s f n p hp

lemma next_id_box_onclick (s : EditorState) (n : Nat) :
    (box_onclick n s).next_id = s.next_id := by
  rcases hc : s.connecting_from with _ | f
  · by_cases hj : s.just_dragged <;>
      simp [box_onclick, hc, hj, select_component]
  · by_cases hj : s.just_dragged <;> by_cases hfn : f = n <;>
      simp [box_onclick, hc, hj, hfn, stop_connecting,
        next_id_complete_connection]

lemma mem_components_box_onmouseup (s : EditorState) (n : Nat)
    (p : Nat × Component) (hp : p ∈ (box_onmouseup n s).components) :
    ∃ q ∈ s.components, p.1 = q.1 := by
  rcases hc : s.connecting_from with _ | f
  · simp [box_onmouseup, hc] at hp
    exact ⟨p, hp, rfl⟩
  · by_cases hj : s.just_dragged <;> by_cases hfn : f = n <;>
      simp [box_onmouseup, hc, hj, hfn, stop_connecting] at hp
    · exact ⟨p, hp, rfl⟩
    · obtain ⟨q, hq, hk⟩ := mem_components_complete_connection _ f n p hp
      exact ⟨q, hq, hk⟩
    · exact ⟨p, hp, rfl⟩
    · exact mem_components_complete_connection s f n p hp

lemma next_id_box_onmouseup (s : EditorState) (n : Nat) :
    (box_onmouseup n s).next_id = s.next_id := by
  rcases hc : s.connecting_from with _ | f
  · simp [box_onmouseup, hc]
  · by_cases hj : s.just_dragged <;> by_cases hfn : f = n <;>
      simp [box_onmouseup, hc, hj, hfn, stop_connecting,
        next_id_complete_connection]

lemma next_id_applyOp (s : EditorState) (op : Op) :
    s.next_id ≤ (applyOp s op).next_id := by
  cases op with
  | addComponent t => exact Nat.le_succ s.next_id
  | deleteComponent id => exact le_of_eq rfl
  | selectComponent id => exact le_of_eq rfl
  | startDragging id x y => exact le_of_eq (next_id_start_dragging s id x y).symm
  | handleMouseMove x y => exact le_of_eq (next_id_handle_mouse_move s x y).symm
  | stopDragging => exact le_of_eq rfl
  | updateContent id c => exact le_of_eq rfl
  | updateStyle id k v => exact le_of_eq rfl
  | completeConnection a b => exact le_of_eq (next_id_complete_connection s a b).symm
  | setMode m => exact le_of_eq rfl
  | setHoveringContainer i => exact le_of_eq rfl
  | setConnectingHoverTarget i => exact le_of_eq rfl
  | startConnecting id => exact le_of_eq rfl
  | stopConnecting => exact le_of_eq rfl
  | boxClick id => exact le_of_eq (next_id_box_onclick s id).symm
  | boxMouseUp id => exact le_of_eq (next_id_box_onmouseup s id).symm
  | boxMouseDown id x y =>
      show s.next_id ≤ (box_onmousedown id x y s).next_id
      by_cases hc : s.connecting_from.isSome <;>
        simp [box_onmousedown, hc, next_id_start_dragging]
  | backgroundMouseDown =>
      show s.next_id ≤ (background_mousedown s).next_id
      by_cases hc : s.connecting_from.isSome <;>
        simp [background_mousedown, hc, stop_connecting]

lemma keysBelow_step (s : EditorState) (op : Op) (h : KeysBelow s) :
    KeysBelow (applyOp s op) := by
  have hkey : ∀ s' : EditorState, s'.next_id = s.next_id →
      (∀ p ∈ s'.components, ∃ q ∈ s.components, p.1 = q.1) → KeysBelow s' := by
    intro s' hn hm p hp
    obtain ⟨q, hq, hk⟩ := hm p hp
    rw [hn, hk]
    exact h q hq
  cases op with
  | addComponent t =>
      intro p hp
      rw [show (applyOp s (Op.addComponent t)).components
          = mapInsert s.next_id _ s.components from rfl, mem_mapInsert_iff] at hp
      rcases hp with rfl | ⟨hp, _⟩
      · exact Nat.lt_succ_self _
      · exact Nat.lt_succ_of_lt (h p hp)
  | deleteComponent id =>
      intro p hp
      have hp' := (mem_mapErase_iff id _ p).1 hp
      obtain ⟨hpm, _⟩ := hp'
      rw [List.mem_map] at hpm
      obtain ⟨q, hq, rfl⟩ := hpm
      exact h q hq
  | selectComponent id => exact hkey _ rfl (fun p hp => ⟨p, hp, rfl⟩)
  | startDragging id x y =>
      exact hkey _ (next_id_start_dragging s id x y)
        (fun p hp => ⟨p, (components_start_dragging s id x y) ▸ hp, rfl⟩)
  | handleMouseMove x y =>
      exact hkey _ (next_id_handle_mouse_move s x y)
        (mem_components_handle_mouse_move s x y)
  | stopDragging => exact hkey _ rfl (fun p hp => ⟨p, hp, rfl⟩)
  | updateContent id c =>
      intro p hp
      obtain ⟨q, hq, hk, _⟩ := mem_mapModify _ _ _ _ hp
      rw [show (applyOp s (Op.updateContent id c)).next_id = s.next_id from rfl, hk]
      exact h q hq
  | updateStyle id k v =>
      intro p hp
      obtain ⟨q, hq, hk, _⟩ := mem_mapModify _ _ _ _ hp
      rw [show (applyOp s (Op.updateStyle id k v)).next_id = s.next_id from rfl, hk]
      exact h q hq
  | completeConnection a b =>
      exact hkey _ (next_id_complete_connection s a b)
        (mem_components_complete_connection s a b)
  | setMode m => exact hkey _ rfl (fun p hp => ⟨p, hp, rfl⟩)
  | setHoveringContainer i => exact hkey _ rfl (fun p hp => ⟨p, hp, rfl⟩)
  | setConnectingHoverTarget i => exact hkey _ rfl (fun p hp => ⟨p, hp, rfl⟩)
  | startConnecting id => exact hkey _ rfl (fun p hp => ⟨p, hp, rfl⟩)
  | stopConnecting => exact hkey _ rfl (fun p hp => ⟨p, hp, rfl⟩)
  | boxClick id =>
      exact hkey _ (next_id_box_onclick s id) (mem_components_box_onclick s id)
  | boxMouseUp id =>
      exact hkey _ (next_id_box_onmouseup s id) (mem_components_box_onmouseup s id)
  | boxMouseDown id x y =>
      refine hkey _ ?_ ?_
      · show (box_onmousedown id x y s).next_id = s.next_id
        by_cases hc : s.connecting_from.isSome <;>
          simp [box_onmousedown, hc, next_id_start_dragging]
      · intro p hp
        refine ⟨p, ?_, rfl⟩
        replace hp : p ∈ (box_onmousedown id x y s).components := hp
        by_cases hc : s.connecting_from.isSome <;>
          simp only [box_onmousedown, hc, if_true, if_false] at hp
        · exact hp
        · exact (components_start_dragging s id x y) ▸ hp
  | backgroundMouseDown =>
      refine hkey _ ?_ ?_
      · show (background_mousedown s).next_id = s.next_id
        by_cases hc : s.connecting_from.isSome <;>
          simp [background_mousedown, hc, stop_connecting]
      · intro p hp
        refine ⟨p, ?_, rfl⟩
        replace hp : p ∈ (background_mousedown s).components := hp
        by_cases hc : s.connecting_from.isSome <;>
          simp only [background_mousedown, hc, if_true, if_false, stop_connecting] at hp
        · exact hp
        · exact hp

/-- C9: in every state reachable by any sequence of editor operations,
every handle in the component map is strictly below `next_id`; hence the
handle a createNode call would return (`next_id`) is not in the map and,
since `next_id` never decreases under any operation, was never assigned
before — handles are monotonically assigned and never reused. -/
theorem handle_freshness (ops : List Op) :
    (∀ p ∈ (runOps ops).components, p.1 < (runOps ops).next_id)
  ∧ lookupComp (runOps ops).components (runOps ops).next_id = none
  ∧ (∀ op, (runOps ops).next_id ≤ (applyOp (runOps ops) op).next_id) := by
  have hinv : KeysBelow (runOps ops) := by
    have aux : ∀ (l : List Op) (s : EditorState), KeysBelow s →
        KeysBelow (l.foldl applyOp s) := by
      intro l
      induction l with
      | nil => intro s hs; exact hs
      | cons op rest ih => intro s hs; exact ih _ (keysBelow_step s op hs)
    exact aux ops EditorState.default
      (by intro p hp; simp [EditorState.default] at hp)
  refine ⟨hinv, ?_, fun op => next_id_applyOp _ op⟩
  rw [lookupComp_eq_none_iff]
  intro p hp
  exact Nat.ne_of_lt (hinv p hp)

/-- C9 (witness): the freshness facts at the concrete one-create session:
the created node's handle 0 is below the counter 1, and the counter itself
is not a key of the map. -/
theorem handle_freshness_witness :
    (0 : Nat) < (runOps [Op.addComponent ComponentType.Container]).next_id
  ∧ lookupComp (runOps [Op.addComponent ComponentType.Container]).components
      (runOps [Op.addComponent ComponentType.Container]).next_id = none := by
  constructor
  · exact (handle_freshness [Op.addComponent ComponentType.Container]).1
      _ (List.mem_cons_self _ _)
  · exact (handle_freshness [Op.addComponent ComponentType.Container]).2.1

/-! ### Geometry of `rect_edge_point_towards` -/

/-- The scale factor that `rect_edge_point_towards` applies to the
center-to-source vector: the minimum of the half-extent ratios taken over
the nonzero coordinates. -/
def edgeScale (vx vy hw hh : ℚ) : ℚ :=
  if vx = 0 then hh / |vy|
  else if vy = 0 then hw / |vx|
  else min (hw / |vx|) (hh / |vy|)

lemma rect_edge_eq (sx sy rx ry rw rh : ℚ)
    (h : ¬(sx - (rx + rw / 2) = 0 ∧ sy - (ry + rh / 2) = 0)) :
    rect_edge_point_towards sx sy rx ry rw rh =
      (rx + rw / 2 + (sx - (rx + rw / 2)) *
        edgeScale (sx - (rx + rw / 2)) (sy - (ry + rh / 2)) (rw / 2) (rh / 2),
       ry + rh / 2 + (sy - (ry + rh / 2)) *
        edgeScale (sx - (rx + rw / 2)) (sy - (ry + rh / 2)) (rw / 2) (rh / 2)) := by
  by_cases hvx : sx - (rx + rw / 2) = 0
  · have hvy : sy - (ry + rh / 2) ≠ 0 := fun hy => h ⟨hvx, hy⟩
    have habsx : ¬ (0 : ℚ) < |sx - (rx + rw / 2)| := by
      rw [hvx]
      simp
    have habsy : (0 : ℚ) < |sy - (ry + rh / 2)| := abs_pos.mpr hvy
    simp [rect_edge_point_towards, edgeScale, h, hvx, hvy, habsx, habsy]
  · by_cases hvy : sy - (ry + rh / 2) = 0
    · have habsx : (0 : ℚ) < |sx - (rx + rw / 2)| := abs_pos.mpr hvx
      have habsy : ¬ (0 : ℚ) < |sy - (ry + rh / 2)| := by
        rw [hvy]
        simp
      simp [rect_edge_point_towards, edgeScale, h, hvx, hvy, habsx, habsy]
    · have habsx : (0 : ℚ) < |sx - (rx + rw / 2)| := abs_pos.mpr hvx
      have habsy : (0 : ℚ) < |sy - (ry + rh / 2)| := abs_pos.mpr hvy
      simp [rect_edge_point_towards, edgeScale, h, hvx, hvy, habsx, habsy]

lemma edgeScale_pos (vx vy hw hh : ℚ) (hhw : 0 < hw) (hhh : 0 < hh)
    (h : ¬(vx = 0 ∧ vy = 0)) : 0 < edgeScale vx vy hw hh := by
  by_cases hvx : vx = 0
  · have hvy : vy ≠ 0 := fun hy => h ⟨hvx, hy⟩
    rw [edgeScale, if_pos hvx]
    exact div_pos hhh (abs_pos.mpr hvy)
  · by_cases hvy : vy = 0
    · rw [edgeScale, if_neg hvx, if_pos hvy]
      exact div_pos hhw (abs_pos.mpr hvx)
    · rw [edgeScale, if_neg hvx, if_neg hvy]
      exact lt_min (div_pos hhw (abs_pos.mpr hvx)) (div_pos hhh (abs_pos.mpr hvy))

lemma edgeScale_le_one (vx vy hw hh : ℚ) (hhw : 0 < hw) (hhh : 0 < hh)
    (hout : hw ≤ |vx| ∨ hh ≤ |vy|) : edgeScale vx vy hw hh ≤ 1 := by
  by_cases hvx : vx = 0
  · have hy : hh ≤ |vy| := by
      rcases hout with hx | hy
      · rw [hvx] at hx
        simp at hx
        exact absurd (lt_of_lt_of_le hhw hx) (lt_irrefl 0)
      · exact hy
    have hvy : vy ≠ 0 := by
      intro he
      rw [he] at hy
      simp at hy
      exact absurd (lt_of_lt_of_le hhh hy) (lt_irrefl 0)
    rw [edgeScale, if_pos hvx]
    rw [div_le_one (abs_pos.mpr hvy)]
    exact hy
  · by_cases hvy : vy = 0
    · have hx : hw ≤ |vx| := by
        rcases hout with hx | hy
        · exact hx
        · rw [hvy] at hy
          simp at hy
          exact absurd (lt_of_lt_of_le hhh hy) (lt_irrefl 0)
      rw [edgeScale, if_neg hvx, if_pos hvy]
      rw [div_le_one (abs_pos.mpr hvx)]
      exact hx
    · rw [edgeScale, if_neg hvx, if_neg hvy]
      rcases hout with hx | hy
      · exact le_trans (min_le_left _ _) ((div_le_one (abs_pos.mpr hvx)).2 hx)
      · exact le_trans (min_le_right _ _) ((div_le_one (abs_pos.mpr hvy)).2 hy)

lemma edgeScale_bound_x (vx vy hw hh : ℚ) (hhw : 0 ≤ hw) :
    |vx| * edgeScale vx vy hw hh ≤ hw := by
  by_cases hvx : vx = 0
  · rw [hvx]
    simpa using hhw
  have habs : (0 : ℚ) < |vx| := abs_pos.mpr hvx
  have key : |vx| * (hw / |vx|) = hw := by
    rw [mul_comm]
    exact div_mul_cancel₀ hw (ne_of_gt habs)
  by_cases hvy : vy = 0
  · rw [edgeScale, if_neg hvx, if_pos hvy, key]
  · rw [edgeScale, if_neg hvx, if_neg hvy]
    calc |vx| * min (hw / |vx|) (hh / |vy|)
        ≤ |vx| * (hw / |vx|) :=
          mul_le_mul_of_nonneg_left (min_le_left _ _) (abs_nonneg vx)
      _ = hw := key

lemma edgeScale_bound_y (vx vy hw hh : ℚ) (hhh : 0 ≤ hh) :
    |vy| * edgeScale vx vy hw hh ≤ hh := by
  by_cases hvy : vy = 0
  · rw [hvy]
    simpa using hhh
  have habs : (0 : ℚ) < |vy| := abs_pos.mpr hvy
  have key : |vy| * (hh / |vy|) = hh := by
    rw [mul_comm]
    exact div_mul_cancel₀ hh (ne_of_gt habs)
  by_cases hvx : vx = 0
  · rw [edgeScale, if_pos hvx, key]
  · rw [edgeScale, if_neg hvx, if_neg hvy]
    calc |vy| * min (hw / |vx|) (hh / |vy|)
        ≤ |vy| * (hh / |vy|) :=
          mul_le_mul_of_nonneg_left (min_le_right _ _) (abs_nonneg vy)
      _ = hh := key

lemma edgeScale_hits (vx vy hw hh : ℚ) (h : ¬(vx = 0 ∧ vy = 0)) :
    |vx| * edgeScale vx vy hw hh = hw ∨ |vy| * edgeScale vx vy hw hh = hh := by
  by_cases hvx : vx = 0
  · have hvy : vy ≠ 0 := fun hy => h ⟨hvx, hy⟩
    right
    rw [edgeScale, if_pos hvx, mul_comm]
    exact div_mul_cancel₀ hh (ne_of_gt (abs_pos.mpr hvy))
  · by_cases hvy : vy = 0
    · left
      rw [edgeScale, if_neg hvx, if_pos hvy, mul_comm]
      exact div_mul_cancel₀ hw (ne_of_gt (abs_pos.mpr hvx))
    · rw [edgeScale, if_neg hvx, if_neg hvy]
      rcases min_choice (hw / |vx|) (hh / |vy|) with hm | hm
      · left
        rw [hm, mul_comm]
        exact div_mul_cancel₀ hw (ne_of_gt (abs_pos.mpr hvx))
      · right
        rw [hm, mul_comm]
        exact div_mul_cancel₀ hh (ne_of_gt (abs_pos.mpr hvy))

/-- C8: `rect_edge_point_towards` returns the rectangle center unchanged
when the source point is the center; for a positive-size rectangle and a
source point outside it (at least one coordinate at least a half-extent
away from the center), it returns a point on the segment from the center to
the source that lies on the rectangle boundary: within both half-extents
and exactly on one of them.  Concretely, for the 200×80 rectangle at the
origin and the external point (300, 40) directly to its right, it returns
(200, 40), the right-edge midpoint. -/
theorem edge_point_towards_spec :
    (∀ sx sy rx ry rw rh : ℚ, sx = rx + rw / 2 → sy = ry + rh / 2 →
      rect_edge_point_towards sx sy rx ry rw rh = (rx + rw / 2, ry + rh / 2))
  ∧ (∀ sx sy rx ry rw rh : ℚ, 0 < rw → 0 < rh →
      ¬(sx = rx + rw / 2 ∧ sy = ry + rh / 2) →
      (rw / 2 ≤ |sx - (rx + rw / 2)| ∨ rh / 2 ≤ |sy - (ry + rh / 2)|) →
      ∃ t : ℚ, 0 < t ∧ t ≤ 1 ∧
        rect_edge_point_towards sx sy rx ry rw rh =
          (rx + rw / 2 + (sx - (rx + rw / 2)) * t,
           ry + rh / 2 + (sy - (ry + rh / 2)) * t) ∧
        |(rect_edge_point_towards sx sy rx ry rw rh).1 - (rx + rw / 2)| ≤ rw / 2 ∧
        |(rect_edge_point_towards sx sy rx ry rw rh).2 - (ry + rh / 2)| ≤ rh / 2 ∧
        (|(rect_edge_point_towards sx sy rx ry rw rh).1 - (rx + rw / 2)| = rw / 2 ∨
         |(rect_edge_point_towards sx sy rx ry rw rh).2 - (ry + rh / 2)| = rh / 2))
  ∧ rect_edge_point_towards 300 40 0 0 200 80 = (200, 40) := by
  refine ⟨?_, ?_, ?_⟩
  · intro sx sy rx ry rw rh hx hy
    subst hx
    subst hy
    simp [rect_edge_point_towards]
  · intro sx sy rx ry rw rh hrw hrh hne hout
    have h' : ¬(sx - (rx + rw / 2) = 0 ∧ sy - (ry + rh / 2) = 0) := by
      rintro ⟨h1, h2⟩
      exact hne ⟨sub_eq_zero.mp h1, sub_eq_zero.mp h2⟩
    have hw2 : (0 : ℚ) < rw / 2 := by positivity
    have hh2 : (0 : ℚ) < rh / 2 := by positivity
    set vx := sx - (rx + rw / 2) with hvxdef
    set vy := sy - (ry + rh / 2) with hvydef
    set t := edgeScale vx vy (rw / 2) (rh / 2) with htdef
    have ht0 : 0 < t := edgeScale_pos vx vy (rw / 2) (rh / 2) hw2 hh2 h'
    have heq := rect_edge_eq sx sy rx ry rw rh h'
    refine ⟨t, ht0, edgeScale_le_one vx vy (rw / 2) (rh / 2) hw2 hh2 hout, heq, ?_, ?_, ?_⟩
    · rw [heq]
      show |rx + rw / 2 + vx * t - (rx + rw / 2)| ≤ rw / 2
      rw [add_sub_cancel_left, abs_mul, abs_of_pos ht0]
      exact edgeScale_bound_x vx vy (rw / 2) (rh / 2) (le_of_lt hw2)
    · rw [heq]
      show |ry + rh / 2 + vy * t - (ry + rh / 2)| ≤ rh / 2
      rw [add_sub_cancel_left, abs_mul, abs_of_pos ht0]
      exact edgeScale_bound_y vx vy (rw / 2) (rh / 2) (le_of_lt hh2)
    · rw [heq]
      show |rx + rw / 2 + vx * t - (rx + rw / 2)| = rw / 2 ∨
           |ry + rh / 2 + vy * t - (ry + rh / 2)| = rh / 2
      rw [add_sub_cancel_left, add_sub_cancel_left, abs_mul, abs_mul, abs_of_pos ht0]
      exact edgeScale_hits vx vy (rw / 2) (rh / 2) h'
  · have h' : ¬((300 : ℚ) - (0 + 200 / 2) = 0 ∧ (40 : ℚ) - (0 + 80 / 2) = 0) := by
      norm_num
    rw [rect_edge_eq 300 40 0 0 200 80 h']
    norm_num [edgeScale]

/-- C8 (witness): the boundary-point characterisation applied at the
rectangle of the claim: the degenerate center case and the external point
(300, 40). -/
theorem edge_point_towards_spec_witness :
    rect_edge_point_towards 100 40 0 0 200 80 = (0 + 200 / 2, 0 + 80 / 2)
  ∧ ∃ t : ℚ, 0 < t ∧ t ≤ 1 ∧
      rect_edge_point_towards 300 40 0 0 200 80 = (100 + 200 * t, 40 + 0 * t) := by
  constructor
  · exact edge_point_towards_spec.1 100 40 0 0 200 80 (by norm_num) (by norm_num)
  · obtain ⟨t, h1, h2, h3, _⟩ := edge_point_towards_spec.2.1 300 40 0 0 200 80
      (by norm_num) (by norm_num) (by norm_num) (by norm_num)
    refine ⟨t, h1, h2, ?_⟩
    rw [h3]
    norm_num

/-- C6 (witness): the absent-handle behaviour at the concrete one-node
state with the absent handle 5. -/
theorem absent_handle_ops_witness :
    update_content 5 "x" exState1 = exState1
  ∧ update_style 5 "color" "red" exState1 = exState1
  ∧ start_dragging 5 0 0 exState1 = exState1
  ∧ delete_component 5 exState1 = exState1
  ∧ (start_connecting 5 exState1).connecting_from = some 5 := by
  have h := absent_handle_ops exState1 5 rfl
  refine ⟨h.1 "x", h.2.1 "color" "red", h.2.2.1 0 0,
    h.2.2.2.2.1 (by decide) (by decide), ?_⟩
  rw [h.2.2.2.2.2]

end CliCms
